import Mathlib

/-!
Verification of the BibleMarker iCloud integration core
(src-tauri/src/icloud.rs) against its natural-language specification.

The Rust source is shallowly embedded: the Objective-C runtime calls are
modelled by an explicit environment record recording what each native call
would return, the background-thread plus channel pattern is modelled by a
worker record carrying a completion time and a result, and filesystem state
is modelled explicitly where a claim needs it.
-/

namespace BibleMarker

/-! ## Data model (icloud.rs lines 12-49) -/

/-- Embeds struct ICloudStatus (icloud.rs lines 14-21). -/
structure ICloudStatus where
  available : Bool
  container_path : Option String
  error : Option String
deriving DecidableEq, Repr

/-- Embeds enum SyncState (icloud.rs lines 36-49). -/
inductive SyncState where
  | synced
  | syncing
  | offline
  | error
  | unavailable
deriving DecidableEq, Repr

/-- Embeds struct SyncStatus (icloud.rs lines 24-34); pending_changes is u32,
modelled as Nat since the code only ever stores 0. -/
structure SyncStatus where
  state : SyncState
  last_sync : Option String
  pending_changes : Nat
  error : Option String
deriving DecidableEq, Repr

/-! ## Container resolver (icloud.rs lines 57-126)

The Objective-C calls inside get_icloud_container_url are modelled by an
environment record: each field records what the corresponding native call
observes during this one invocation (no state is cached across calls). -/

/-- One invocation environment for get_icloud_container_url: which native
calls return nil, whether the ubiquity identity token is present, the HOME
variable, the path string the URL converts to, and which paths exist on
disk. -/
structure ResolverEnv where
  fileManagerNull : Bool
  hasToken : Bool
  urlNull : Bool
  pathNull : Bool
  utf8Null : Bool
  pathStr : String
  home : String
  onDisk : String → Bool

/-- The well-known fallback location, icloud.rs line 98. -/
def fallbackPath (home : String) : String :=
  home ++ "/Library/Mobile Documents/iCloud~app~biblemarker"

/-- Embeds get_icloud_container_url (icloud.rs lines 58-126) together with
the number of diagnostic log lines the invocation prints (the eprintln at
line 100 runs exactly when the fallback branch succeeds). -/
def get_icloud_container_url_logged (env : ResolverEnv) : Except String String × Nat :=
  if env.fileManagerNull then (.error "Failed to get NSFileManager", 0)
  else if env.urlNull then
    if env.onDisk (fallbackPath env.home) && env.hasToken then
      (.ok (fallbackPath env.home), 1)
    else
      (.error "iCloud container not available. Make sure iCloud Drive is enabled and you are signed in.", 0)
  else if env.pathNull then (.error "Failed to get path from iCloud URL", 0)
  else if env.utf8Null then (.error "Failed to convert path to UTF8", 0)
  else (.ok env.pathStr, 0)

/-- Result of get_icloud_container_url (icloud.rs lines 58-126). -/
def get_icloud_container_url (env : ResolverEnv) : Except String String :=
  (get_icloud_container_url_logged env).1

/-- Number of diagnostic fallback log lines one invocation emits
(icloud.rs line 100). -/
def fallbackLogCount (env : ResolverEnv) : Nat :=
  (get_icloud_container_url_logged env).2

/-- Whether one invocation takes the successful disk-fallback branch. -/
def fallbackTaken (env : ResolverEnv) : Bool :=
  !env.fileManagerNull && env.urlNull && env.onDisk (fallbackPath env.home) && env.hasToken

/-- Total number of fallback log lines emitted over a whole process
lifetime, modelled as the sequence of resolver invocations the process
performs. -/
def totalFallbackLogs (calls : List ResolverEnv) : Nat :=
  (calls.map fallbackLogCount).sum

/-! ## Bounded invoker (icloud.rs lines 136-159, 164-169)

The spawned worker plus mpsc channel plus recv_timeout pattern is modelled
by a worker record: the time at which the send would arrive (none when the
native call never returns) and the value it would carry. -/

/-- A background worker run: when its result arrives on the channel
(in seconds, none when the native call blocks forever) and the result it
sends. -/
structure WorkerRun where
  completesAt : Option Nat
  result : Except String String

/-- Embeds rx.recv_timeout(duration): the caller sees the worker result
exactly when it arrives within the bound, otherwise a timeout. -/
def recv_timeout (duration : Nat) (w : WorkerRun) : Option (Except String String) :=
  match w.completesAt with
  | some t => if t ≤ duration then some w.result else none
  | none => none

/-- The worker completes within the bound. -/
def completesWithin (w : WorkerRun) (duration : Nat) : Prop :=
  ∃ t, w.completesAt = some t ∧ t ≤ duration

/-- The timeout used by check_icloud_status (icloud.rs line 142). -/
def CHECK_TIMEOUT_SECS : Nat := 10

/-- The timeout used by get_icloud_database_path (icloud.rs line 168). -/
def DB_PATH_TIMEOUT_SECS : Nat := 10

/-- Embeds check_icloud_status (icloud.rs lines 136-159) with the wait
bound abstracted; the source instantiates it with 10 seconds. -/
def check_icloud_status_with (duration : Nat) (w : WorkerRun) : ICloudStatus :=
  match recv_timeout duration w with
  | some (.ok path) => ⟨true, some path, none⟩
  | some (.error err) => ⟨false, none, some err⟩
  | none => ⟨false, none, some "iCloud check timed out after 10 seconds"⟩

/-- Embeds check_icloud_status (icloud.rs lines 136-159). -/
def check_icloud_status (w : WorkerRun) : ICloudStatus :=
  check_icloud_status_with CHECK_TIMEOUT_SECS w

/-! ## Database path (icloud.rs lines 164-183)

The filesystem is modelled as the list of directories that exist; the
possible OS failure of std::fs::create_dir_all is modelled by an optional
error text. -/

/-- Embeds std::fs::create_dir_all as used at icloud.rs line 178: succeeds
without change when the directory already exists, otherwise either fails
with the given OS error or records the new directory. -/
def create_dir_all (fs : List String) (fault : Option String) (p : String) :
    Except String (List String) :=
  if p ∈ fs then .ok fs
  else
    match fault with
    | some e => .error e
    | none => .ok (p :: fs)

/-- Embeds get_icloud_database_path (icloud.rs lines 164-183): bounded wait
on the resolver worker, then append the fixed suffix and ensure the
Documents directory exists. Returns the command result and the filesystem
afterwards. -/
def get_icloud_database_path (w : WorkerRun) (fault : Option String) (fs : List String) :
    Except String String × List String :=
  match recv_timeout DB_PATH_TIMEOUT_SECS w with
  | none => (.error "iCloud path check timed out", fs)
  | some (.error e) => (.error e, fs)
  | some (.ok container_path) =>
    match create_dir_all fs fault (container_path ++ "/Documents") with
    | .error e => (.error ("Failed to create iCloud Documents directory: " ++ e), fs)
    | .ok fs2 => (.ok (container_path ++ "/Documents/biblemarker.db"), fs2)

/-! ## Timestamp conversion (icloud.rs lines 219-278)

The two Rust while loops are embedded with an explicit fuel argument that
provably dominates the number of iterations the source loop performs, so
the embedded function exits the loop exactly where the source does. -/

/-- Embeds is_leap_year (icloud.rs lines 229-231). -/
def is_leap_year (year : Nat) : Bool :=
  (year % 4 == 0 && year % 100 != 0) || (year % 400 == 0)

/-- Embeds days_in_year (icloud.rs lines 233-235). -/
def days_in_year (year : Nat) : Nat :=
  if is_leap_year year then 366 else 365

/-- Embeds the DAYS_IN_MONTH array (icloud.rs line 227), indexed 0-11; the
source loop never indexes outside that range. -/
def days_in_month_table (m : Nat) : Nat :=
  match m with
  | 0 => 31
  | 1 => 28
  | 2 => 31
  | 3 => 30
  | 4 => 31
  | 5 => 30
  | 6 => 31
  | 7 => 31
  | 8 => 30
  | 9 => 31
  | 10 => 30
  | _ => 31

/-- Length of month m (0-indexed) in the given year, exactly the
days_this_month expression of icloud.rs lines 255-259. -/
def month_len (year m : Nat) : Nat :=
  if m == 1 && is_leap_year year then 29 else days_in_month_table m

/-- The year-finding while loop of icloud.rs lines 247-250, with fuel; each
iteration consumes at least 365 days, so any fuel exceeding days / 365
makes the function exit through the loop condition exactly as the source
does. -/
def yearLoop : Nat → Nat → Nat → Nat × Nat
  | 0, days, year => (days, year)
  | fuel + 1, days, year =>
    if days_in_year year ≤ days then yearLoop fuel (days - days_in_year year) (year + 1)
    else (days, year)

/-- The month-finding while loop of icloud.rs lines 253-266, with fuel 12
matching the loop bound month < 12. -/
def monthLoop (year : Nat) : Nat → Nat → Nat → Nat × Nat
  | 0, days, m => (days, m)
  | fuel + 1, days, m =>
    if m < 12 then
      if days < month_len year m then (days, m)
      else monthLoop year fuel (days - month_len year m) (m + 1)
    else (days, m)

/-- The numeric fields (year, month, day, hours, minutes, seconds) computed
by chrono_lite_from_secs (icloud.rs lines 237-272), month and day already
1-indexed and the month clamped with min 11 as at line 269. -/
def chronoFields (secs : Nat) : Nat × Nat × Nat × Nat × Nat × Nat :=
  let time_of_day := secs % 86400
  let days0 := secs / 86400
  let yr := yearLoop (days0 / 365 + 1) days0 1970
  let mr := monthLoop yr.2 12 yr.1 0
  (yr.2, min mr.2 11 + 1, mr.1 + 1,
    time_of_day / 3600, (time_of_day % 3600) / 60, time_of_day % 60)

/-- The character for one decimal digit. -/
def digitChar (n : Nat) : Char := Char.ofNat (48 + n)

/-- Decimal digits of n, most significant first, with fuel; fuel n + 1
always suffices since n / 10 < n for n ≥ 10. -/
def digitsFuel : Nat → Nat → List Char
  | 0, _ => []
  | fuel + 1, n =>
    if n < 10 then [digitChar n]
    else digitsFuel fuel (n / 10) ++ [digitChar (n % 10)]

/-- Decimal representation of a Nat, as the Rust formatter prints it. -/
def natDecimal (n : Nat) : String := String.mk (digitsFuel (n + 1) n)

/-- Zero padding to a minimum width, the semantics of the Rust format
specifiers 04 and 02 (icloud.rs line 275). -/
def zeroPad (w n : Nat) : String :=
  String.mk (List.replicate (w - (natDecimal n).length) '0') ++ natDecimal n

/-- Embeds chrono_lite_from_secs (icloud.rs lines 219-278). -/
def chrono_lite_from_secs (secs : Nat) : String :=
  zeroPad 4 (chronoFields secs).1 ++ "-" ++
  zeroPad 2 (chronoFields secs).2.1 ++ "-" ++
  zeroPad 2 (chronoFields secs).2.2.1 ++ "T" ++
  zeroPad 2 (chronoFields secs).2.2.2.1 ++ ":" ++
  zeroPad 2 (chronoFields secs).2.2.2.2.1 ++ ":" ++
  zeroPad 2 (chronoFields secs).2.2.2.2.2 ++ "Z"

/-! ## Specification-side calendar definitions

These follow the words of the claim, not the code: the leap-year rule as a
proposition, 1-indexed month lengths with their textbook values, and the
day counts before a year and before a month, used to characterise the
proleptic Gregorian date of a second count. -/

/-- Leap year as stated by the specification: divisible by 4 and not by
100, or divisible by 400. -/
def isLeapSpec (y : Nat) : Prop := (y % 4 = 0 ∧ y % 100 ≠ 0) ∨ y % 400 = 0

instance (y : Nat) : Decidable (isLeapSpec y) := by
  unfold isLeapSpec
  infer_instance

/-- Days in a year under the specification leap rule. -/
def daysInYearSpec (y : Nat) : Nat := if isLeapSpec y then 366 else 365

/-- Textbook length of month m (1-indexed, 1 to 12) in year y. -/
def monthLenSpec (y m : Nat) : Nat :=
  match m with
  | 1 => 31
  | 2 => if isLeapSpec y then 29 else 28
  | 3 => 31
  | 4 => 30
  | 5 => 31
  | 6 => 30
  | 7 => 31
  | 8 => 31
  | 9 => 30
  | 10 => 31
  | 11 => 30
  | _ => 31

/-- Days strictly before year 1970 + n, counted from 1970-01-01. -/
def daysBeforeYearsSpec : Nat → Nat
  | 0 => 0
  | n + 1 => daysBeforeYearsSpec n + daysInYearSpec (1970 + n)

/-- Days strictly before month m (1-indexed) within year y. -/
def daysBeforeMonthSpec (y : Nat) : Nat → Nat
  | 0 => 0
  | 1 => 0
  | m + 2 => daysBeforeMonthSpec y (m + 1) + monthLenSpec y (m + 1)

/-- Sum of code-side year lengths for n consecutive years starting at
year, used to state the year-loop invariant. -/
def sumYears (year : Nat) : Nat → Nat
  | 0 => 0
  | n + 1 => sumYears year n + days_in_year (year + n)

/-- Sum of code-side month lengths for the first m months (0-indexed) of
year, used to state the month-loop invariant. -/
def sumMonths (year : Nat) : Nat → Nat
  | 0 => 0
  | m + 1 => sumMonths year m + month_len year m

/-! ## Sync status (icloud.rs lines 187-204)

get_sync_status calls get_icloud_container_url directly on the caller
execution context, with no worker thread and no recv_timeout; so the call
returns only when the native resolution itself returns. The model makes
that visible: the result is none when the native call never returns. -/

/-- One invocation environment for get_sync_status: the resolver
environment, the time at which the native resolution would return (none
when it blocks forever), and the current clock in seconds since the epoch
read by chrono_lite_now. -/
structure SyncEnv where
  resolver : ResolverEnv
  resolveTime : Option Nat
  nowSecs : Nat

/-- The worker that check_icloud_status would spawn in the same
environment, for comparison with the unwrapped call. -/
def resolverWorker (env : SyncEnv) : WorkerRun :=
  ⟨env.resolveTime, get_icloud_container_url env.resolver⟩

/-- Embeds get_sync_status (icloud.rs lines 187-204). The direct,
unbounded call to get_icloud_container_url means the command produces a
value only when the native call returns at all; none models a call that
never returns to its caller. -/
def get_sync_status (env : SyncEnv) : Option SyncStatus :=
  match env.resolveTime with
  | none => none
  | some _ =>
    some (match get_icloud_container_url env.resolver with
      | .ok _ => ⟨.synced, some (chrono_lite_from_secs env.nowSecs), 0, none⟩
      | .error _ => ⟨.unavailable, none, 0, some "iCloud not available"⟩)

/-! ## Migration engine (spec section 4.4)

No migrate_legacy_database exists under src/; the model below follows the
specification text. Only the two fixed locations the spec names matter, so
the filesystem is modelled as the optional file at each location plus the
outcome of the native steps. -/

/-- Result of the single-page integrity check of spec step 5. -/
inductive IntegrityResult where
  | passes
  | reportsFailure
  | checkErrors
deriving DecidableEq, Repr

/-- A database file: its size in bytes and how the integrity check of its
content would come out. -/
structure DbFile where
  size : Nat
  integrity : IntegrityResult
deriving DecidableEq, Repr

/-- MigrationOutcome tagged union from spec section 3. -/
inductive MigrationOutcome where
  | migrated
  | skippedAlreadyLocal
  | skippedNoSource
  | failedCorrupt (detail : String)
  | failedIoErr (detail : String)
deriving DecidableEq, Repr

/-- One invocation environment for the migration engine: the file at the
local location, whether container resolution succeeds, the file at the
legacy location inside the container, and whether the copy step fails
midway. -/
structure MigrationEnv where
  localFile : Option DbFile
  containerResolves : Bool
  legacyFile : Option DbFile
  copyFails : Bool

/-- Modelled from the spec: steps 2 to 5 of migrate_legacy_database
(spec section 4.4), run after the local-file check has not skipped.
Returns the outcome and the file at the local location afterwards; both
failure branches delete the copy, leaving the local location absent. -/
def migrate_from_container (env : MigrationEnv) : MigrationOutcome × Option DbFile :=
  if env.containerResolves then
    match env.legacyFile with
    | none => (.skippedNoSource, env.localFile)
    | some legacy =>
      if env.copyFails then (.failedIoErr "copy failed", none)
      else
        match legacy.integrity with
        | .passes => (.migrated, some legacy)
        | .reportsFailure => (.failedCorrupt "integrity check failed", none)
        | .checkErrors => (.failedIoErr "open or integrity check errored", none)
  else (.skippedNoSource, env.localFile)

/-- Modelled from the spec: migrate_legacy_database (spec section 4.4) is
absent from src/, so this definition follows the specification algorithm:
a non-empty local file skips, an empty local file is treated as absent,
then resolution, source check, copy of the primary file only, and the
integrity check with cleanup on both failure branches. -/
def migrate_legacy_database (env : MigrationEnv) : MigrationOutcome × Option DbFile :=
  match env.localFile with
  | some f =>
    if f.size ≠ 0 then (.skippedAlreadyLocal, env.localFile)
    else migrate_from_container env
  | none => migrate_from_container env

end BibleMarker

namespace BibleMarker

/-! ## Theorems -/

/-- Claim C1: when the primary ubiquitous-container API returns no path
(url nil, with a live NSFileManager), the resolver returns Ok carrying the
well-known fallback path if and only if that path exists on disk and the
sign-in identity token is present; if either condition fails it returns the
Unavailable error with its reason string. -/
theorem resolver_fallback_iff (env : ResolverEnv)
    (hfm : env.fileManagerNull = false) (hurl : env.urlNull = true) :
    (get_icloud_container_url env = .ok (fallbackPath env.home) ↔
      env.onDisk (fallbackPath env.home) = true ∧ env.hasToken = true) ∧
    ((env.onDisk (fallbackPath env.home) = false ∨ env.hasToken = false) →
      get_icloud_container_url env =
        .error "iCloud container not available. Make sure iCloud Drive is enabled and you are signed in.") := by
  unfold get_icloud_container_url get_icloud_container_url_logged
  rw [hfm, hurl]
  simp only [Bool.false_eq_true, if_false, if_true]
  constructor
  · by_cases hd : env.onDisk (fallbackPath env.home) <;>
      by_cases ht : env.hasToken <;> simp [hd, ht]
  · rintro (hd | ht)
    · simp [hd]
    · simp [ht]

/-- Witness for claim C1 at a concrete environment in which the API
returned nil, the fallback directory exists and the token is present. -/
theorem resolver_fallback_iff_witness :
    (get_icloud_container_url
        ⟨false, true, true, false, false, "", "/Users/u", fun _ => true⟩ =
      .ok (fallbackPath "/Users/u") ↔
      (fun _ => true : String → Bool) (fallbackPath "/Users/u") = true ∧ true = true) ∧
    (((fun _ => true : String → Bool) (fallbackPath "/Users/u") = false ∨ true = false) →
      get_icloud_container_url
          ⟨false, true, true, false, false, "", "/Users/u", fun _ => true⟩ =
        .error "iCloud container not available. Make sure iCloud Drive is enabled and you are signed in.") :=
  resolver_fallback_iff ⟨false, true, true, false, false, "", "/Users/u", fun _ => true⟩ rfl rfl

/-- Helper: when the worker completes within the bound, recv_timeout
delivers its result. -/
theorem recv_timeout_of_completes (duration t : Nat) (w : WorkerRun)
    (hc : w.completesAt = some t) (hle : t ≤ duration) :
    recv_timeout duration w = some w.result := by
  unfold recv_timeout
  rw [hc]
  simp [hle]

/-- Helper: when the worker does not complete within the bound,
recv_timeout delivers nothing. -/
theorem recv_timeout_of_misses (duration : Nat) (w : WorkerRun)
    (h : ¬ completesWithin w duration) :
    recv_timeout duration w = none := by
  unfold recv_timeout
  cases hc : w.completesAt with
  | none => rfl
  | some t =>
    have : ¬ t ≤ duration := fun hle => h ⟨t, hc, hle⟩
    simp [this]

/-- Claim C2: for every bound and every worker that completes before the
bound elapses, the bounded-wait wrapper forwards the worker result
unchanged: a successful resolution becomes an available status carrying
that exact path, a domain error becomes an unavailable status carrying
that exact error text. -/
theorem bounded_wait_forwards_result (duration t : Nat) (w : WorkerRun)
    (hc : w.completesAt = some t) (hle : t ≤ duration) :
    check_icloud_status_with duration w =
      match w.result with
      | .ok path => ⟨true, some path, none⟩
      | .error err => ⟨false, none, some err⟩ := by
  unfold check_icloud_status_with
  rw [recv_timeout_of_completes duration t w hc hle]
  cases w.result <;> rfl

/-- Witness for claim C2: a worker that completes immediately with a path
is forwarded as an available status carrying that path. -/
theorem bounded_wait_forwards_result_witness :
    check_icloud_status_with 10 ⟨some 0, .ok "/c"⟩ = ⟨true, some "/c", none⟩ :=
  bounded_wait_forwards_result 10 0 ⟨some 0, .ok "/c"⟩ rfl (by decide)

/-- Claim C3: when the worker does not complete before the bound, the
caller receives the distinct timeout error, which no resolver domain error
ever equals; whatever result the abandoned worker would eventually send is
ignored (the status is the same fixed timeout status for every such
worker); and both public bounded waits use a 10 second bound. -/
theorem bounded_wait_timeout_distinct (w : WorkerRun) (fault : Option String)
    (fs : List String) (env : ResolverEnv)
    (h : ¬ completesWithin w CHECK_TIMEOUT_SECS) :
    check_icloud_status w = ⟨false, none, some "iCloud check timed out after 10 seconds"⟩ ∧
    get_icloud_database_path w fault fs = (.error "iCloud path check timed out", fs) ∧
    CHECK_TIMEOUT_SECS = 10 ∧ DB_PATH_TIMEOUT_SECS = 10 ∧
    get_icloud_container_url env ≠ .error "iCloud check timed out after 10 seconds" := by
  have hnone : recv_timeout CHECK_TIMEOUT_SECS w = none := recv_timeout_of_misses _ w h
  refine ⟨?_, ?_, rfl, rfl, ?_⟩
  · unfold check_icloud_status check_icloud_status_with
    rw [hnone]
  · unfold get_icloud_database_path
    rw [show DB_PATH_TIMEOUT_SECS = CHECK_TIMEOUT_SECS from rfl, hnone]
  · unfold get_icloud_container_url get_icloud_container_url_logged
    rcases env with ⟨fm, tok, url, pn, un, ps, hm, od⟩
    dsimp
    split
    · simp
    · split
      · split <;> simp
      · split
        · simp
        · split <;> simp

/-- Witness for claim C3: a worker that never completes yields the timeout
status, the database-path command yields the timeout error, both bounds
are 10 seconds, and a concrete resolver run never produces the timeout
text as a domain error. -/
theorem bounded_wait_timeout_distinct_witness :
    check_icloud_status ⟨none, .ok "/c"⟩ =
      ⟨false, none, some "iCloud check timed out after 10 seconds"⟩ ∧
    get_icloud_database_path ⟨none, .ok "/c"⟩ none [] =
      (.error "iCloud path check timed out", []) ∧
    CHECK_TIMEOUT_SECS = 10 ∧ DB_PATH_TIMEOUT_SECS = 10 ∧
    get_icloud_container_url ⟨true, false, false, false, false, "", "", fun _ => false⟩ ≠
      .error "iCloud check timed out after 10 seconds" :=
  bounded_wait_timeout_distinct ⟨none, .ok "/c"⟩ none []
    ⟨true, false, false, false, false, "", "", fun _ => false⟩
    (by rintro ⟨t, ht, _⟩; exact Option.noConfusion ht)

/-- Claim C4 (spec-modelled): whenever migrate_legacy_database returns
FailedCorrupt or FailedIo, the local location is left absent afterwards:
the partially copied or corrupt file has been deleted. -/
theorem migration_failure_leaves_local_absent (env : MigrationEnv)
    (hfail : (∃ detail, (migrate_legacy_database env).1 = .failedCorrupt detail) ∨
      ∃ detail, (migrate_legacy_database env).1 = .failedIoErr detail) :
    (migrate_legacy_database env).2 = none := by
  rcases env with ⟨lf, cr, leg, cf⟩
  rcases lf with _ | ⟨fsz, fint⟩ <;> rcases leg with _ | ⟨lsz, lint⟩ <;>
    rcases cr <;> rcases cf <;> (try rcases lint) <;> (try by_cases hz : fsz = 0) <;>
    simp_all [migrate_legacy_database, migrate_from_container]

/-- Witness for claim C4: migrating a legacy file whose integrity check
reports failure returns FailedCorrupt and leaves the local location
absent. -/
theorem migration_failure_leaves_local_absent_witness :
    (migrate_legacy_database ⟨none, true, some ⟨5, .reportsFailure⟩, false⟩).2 = none :=
  migration_failure_leaves_local_absent ⟨none, true, some ⟨5, .reportsFailure⟩, false⟩
    (Or.inl ⟨"integrity check failed", rfl⟩)

/-- Claim C5 exhibit: get_sync_status does not route resolution through
the bounded-wait wrapper. In an environment where the native container
call never returns, get_sync_status never returns to its caller, while
check_icloud_status over the very same environment returns the 10 second
timeout status. -/
theorem sync_status_bypasses_bounded_wait :
    get_sync_status ⟨⟨false, true, false, false, false, "/c", "", fun _ => false⟩, none, 0⟩ = none ∧
    check_icloud_status
        (resolverWorker ⟨⟨false, true, false, false, false, "/c", "", fun _ => false⟩, none, 0⟩) =
      ⟨false, none, some "iCloud check timed out after 10 seconds"⟩ :=
  ⟨rfl, rfl⟩

/-- Claim C6 counterexample: a process that performs two resolver calls
that both succeed through the disk fallback emits the diagnostic log line
twice, so the line is not rate-limited to once per process lifetime. -/
theorem fallback_log_not_once_per_process :
    totalFallbackLogs
        [⟨false, true, true, false, false, "", "/u", fun _ => true⟩,
         ⟨false, true, true, false, false, "", "/u", fun _ => true⟩] = 2 ∧
    ¬ totalFallbackLogs
        [⟨false, true, true, false, false, "", "/u", fun _ => true⟩,
         ⟨false, true, true, false, false, "", "/u", fun _ => true⟩] ≤ 1 := by
  constructor <;> decide

/-- Helper: one resolver invocation emits the diagnostic line exactly when
it takes the successful disk-fallback branch. -/
theorem fallbackLogCount_eq (env : ResolverEnv) :
    fallbackLogCount env = if fallbackTaken env then 1 else 0 := by
  unfold fallbackLogCount fallbackTaken get_icloud_container_url_logged
  rcases env with ⟨fm, tok, url, pn, un, ps, hm, od⟩
  dsimp
  rcases fm <;> rcases url <;> rcases pn <;> rcases un <;> rcases tok <;>
    by_cases hc : od (fallbackPath hm) = true <;> simp_all

/-- Claim C6 (amended): the diagnostic fallback log line is emitted once
per resolver invocation that succeeds through the disk fallback, so over a
process lifetime the number of lines equals the number of successful
fallback resolutions, with no once-per-process rate limit. -/
theorem fallback_log_once_per_fallback_success (calls : List ResolverEnv) :
    totalFallbackLogs calls = (calls.filter fallbackTaken).length := by
  induction calls with
  | nil => rfl
  | cons e rest ih =>
    unfold totalFallbackLogs at ih ⊢
    rw [List.map_cons, List.sum_cons, List.filter_cons, ih, fallbackLogCount_eq e]
    by_cases h : fallbackTaken e
    · simp [h]
      omega
    · simp [h]

/-- Claim C7: every status returned by check_icloud_status is fully valid:
available is true exactly when a container path is present and the error
is absent, and available is false exactly when an error is present and the
container path is absent. -/
theorem icloud_status_never_partially_valid (w : WorkerRun) :
    ((check_icloud_status w).available = true ↔
      (check_icloud_status w).container_path ≠ none ∧ (check_icloud_status w).error = none) ∧
    ((check_icloud_status w).available = false ↔
      (check_icloud_status w).error ≠ none ∧ (check_icloud_status w).container_path = none) := by
  unfold check_icloud_status check_icloud_status_with recv_timeout
  rcases w with ⟨ct, r⟩
  dsimp
  cases ct with
  | none => simp
  | some t =>
    by_cases h : t ≤ CHECK_TIMEOUT_SECS <;> cases r <;> simp [h]

/-- Claim C8: when container resolution succeeds within the bound and the
directory creation does not fault (or the directory already exists), the
database-path command returns exactly the resolved container path with the
fixed suffix appended, and the Documents directory under the container
exists afterwards; creation is idempotent, succeeding with the filesystem
unchanged when the directory is already present whatever the fault. -/
theorem database_path_appends_suffix_and_creates_docs (w : WorkerRun) (t : Nat)
    (p : String) (fault : Option String) (fs : List String)
    (hc : w.completesAt = some t) (hle : t ≤ DB_PATH_TIMEOUT_SECS)
    (hr : w.result = .ok p)
    (hok : fault = none ∨ (p ++ "/Documents") ∈ fs) :
    (get_icloud_database_path w fault fs).1 = .ok (p ++ "/Documents/biblemarker.db") ∧
    (p ++ "/Documents") ∈ (get_icloud_database_path w fault fs).2 ∧
    ((p ++ "/Documents") ∈ fs →
      get_icloud_database_path w fault fs = (.ok (p ++ "/Documents/biblemarker.db"), fs)) := by
  have hrt : recv_timeout DB_PATH_TIMEOUT_SECS w = some (.ok p) := by
    rw [recv_timeout_of_completes _ t w hc hle, hr]
  unfold get_icloud_database_path create_dir_all
  rw [hrt]
  by_cases hmem : (p ++ "/Documents") ∈ fs
  · simp [hmem]
  · rcases hok with hnone | hmem2
    · subst hnone
      simp [hmem]
    · exact absurd hmem2 hmem

/-- Witness for claim C8: a worker resolving immediately to /c with no
creation fault yields the path /c/Documents/biblemarker.db and a
filesystem containing /c/Documents. -/
theorem database_path_appends_suffix_witness :
    (get_icloud_database_path ⟨some 0, .ok "/c"⟩ none []).1 =
      .ok ("/c" ++ "/Documents/biblemarker.db") ∧
    ("/c" ++ "/Documents") ∈ (get_icloud_database_path ⟨some 0, .ok "/c"⟩ none []).2 ∧
    (("/c" ++ "/Documents") ∈ ([] : List String) →
      get_icloud_database_path ⟨some 0, .ok "/c"⟩ none [] =
        (.ok ("/c" ++ "/Documents/biblemarker.db"), [])) :=
  database_path_appends_suffix_and_creates_docs ⟨some 0, .ok "/c"⟩ 0 "/c" none []
    rfl (by decide) rfl (Or.inl rfl)

/-- Claim C10: every status get_sync_status returns has zero pending
changes; a successful resolution yields exactly the Synced state with a
timestamp and no error, a failed resolution yields exactly the Unavailable
state with no timestamp and the fixed error message; no other state is
returned. -/
theorem sync_status_invariant (env : SyncEnv) (s : SyncStatus) (p e : String)
    (h : get_sync_status env = some s) :
    s.pending_changes = 0 ∧
    (s.state = .synced ∨ s.state = .unavailable) ∧
    (get_icloud_container_url env.resolver = .ok p →
      s = ⟨.synced, some (chrono_lite_from_secs env.nowSecs), 0, none⟩) ∧
    (get_icloud_container_url env.resolver = .error e →
      s = ⟨.unavailable, none, 0, some "iCloud not available"⟩) := by
  unfold get_sync_status at h
  cases hrt : env.resolveTime with
  | none => rw [hrt] at h; exact Option.noConfusion h
  | some t =>
    rw [hrt] at h
    cases hres : get_icloud_container_url env.resolver <;>
      rw [hres] at h <;> injection h with h <;> subst h <;> simp_all

/-- Witness for claim C10: in an environment whose resolution returns /c
at time 0, get_sync_status returns the Synced status with the epoch
timestamp, zero pending changes and no error. -/
theorem sync_status_invariant_witness :
    (SyncStatus.pending_changes ⟨.synced, some (chrono_lite_from_secs 0), 0, none⟩) = 0 ∧
    ((SyncStatus.state ⟨.synced, some (chrono_lite_from_secs 0), 0, none⟩) = .synced ∨
      (SyncStatus.state ⟨.synced, some (chrono_lite_from_secs 0), 0, none⟩) = .unavailable) ∧
    (get_icloud_container_url
        (SyncEnv.resolver ⟨⟨false, true, false, false, false, "/c", "", fun _ => false⟩, some 0, 0⟩) =
        .ok "/c" →
      (⟨.synced, some (chrono_lite_from_secs 0), 0, none⟩ : SyncStatus) =
        ⟨.synced, some (chrono_lite_from_secs
          (SyncEnv.nowSecs ⟨⟨false, true, false, false, false, "/c", "", fun _ => false⟩, some 0, 0⟩)), 0, none⟩) ∧
    (get_icloud_container_url
        (SyncEnv.resolver ⟨⟨false, true, false, false, false, "/c", "", fun _ => false⟩, some 0, 0⟩) =
        .error "x" →
      (⟨.synced, some (chrono_lite_from_secs 0), 0, none⟩ : SyncStatus) =
        ⟨.unavailable, none, 0, some "iCloud not available"⟩) :=
  sync_status_invariant ⟨⟨false, true, false, false, false, "/c", "", fun _ => false⟩, some 0, 0⟩
    ⟨.synced, some (chrono_lite_from_secs 0), 0, none⟩ "/c" "x" rfl

/-! ## Calendar lemmas for claim C9 -/

/-- Helper: every year has at least 365 days. -/
theorem days_in_year_ge (y : Nat) : 365 ≤ days_in_year y := by
  unfold days_in_year
  split <;> omega

/-- Helper: peeling the first year off a consecutive sum of year
lengths. -/
theorem sumYears_succ_left (y n : Nat) :
    sumYears y (n + 1) = days_in_year y + sumYears (y + 1) n := by
  induction n with
  | zero =>
    show sumYears y 0 + days_in_year (y + 0) = days_in_year y + 0
    simp [sumYears]
  | succ k ih =>
    have harg : y + (k + 1) = y + 1 + k := by omega
    have e1 : sumYears y (k + 1 + 1) = sumYears y (k + 1) + days_in_year (y + (k + 1)) := rfl
    have e2 : sumYears (y + 1) (k + 1) = sumYears (y + 1) k + days_in_year (y + 1 + k) := rfl
    rw [e1, ih, e2, harg]
    omega

/-- Helper: the year-finding loop exits through its guard whenever the
fuel dominates days / 365, and its result decomposes the day count as a
consecutive sum of whole years plus a remainder smaller than the final
year. -/
theorem yearLoop_sound :
    ∀ fuel days year : Nat, days < 365 * fuel →
      ∃ n d1, yearLoop fuel days year = (d1, year + n) ∧
        days = sumYears year n + d1 ∧ d1 < days_in_year (year + n) := by
  intro fuel
  induction fuel with
  | zero => intro days year hlt; omega
  | succ f ih =>
    intro days year hlt
    by_cases hg : days_in_year year ≤ days
    · have hge := days_in_year_ge year
      obtain ⟨n, d1, hloop, hsum, hrem⟩ :=
        ih (days - days_in_year year) (year + 1) (by omega)
      refine ⟨n + 1, d1, ?_, ?_, ?_⟩
      · show yearLoop (f + 1) days year = _
        unfold yearLoop
        rw [if_pos hg, hloop]
        have : year + 1 + n = year + (n + 1) := by omega
        rw [this]
      · rw [sumYears_succ_left]
        omega
      · have : year + (n + 1) = year + 1 + n := by omega
        rw [this]
        exact hrem
    · refine ⟨0, days, ?_, ?_, ?_⟩
      · show yearLoop (f + 1) days year = _
        unfold yearLoop
        rw [if_neg hg, Nat.add_zero]
      · show days = 0 + days
        omega
      · show days < days_in_year (year + 0)
        rw [Nat.add_zero]
        omega

/-- Helper: the twelve code-side month lengths sum to the length of the
year. -/
theorem sumMonths_twelve (y : Nat) : sumMonths y 12 = days_in_year y := by
  have e12 : sumMonths y 12 = sumMonths y 11 + month_len y 11 := rfl
  have e11 : sumMonths y 11 = sumMonths y 10 + month_len y 10 := rfl
  have e10 : sumMonths y 10 = sumMonths y 9 + month_len y 9 := rfl
  have e9 : sumMonths y 9 = sumMonths y 8 + month_len y 8 := rfl
  have e8 : sumMonths y 8 = sumMonths y 7 + month_len y 7 := rfl
  have e7 : sumMonths y 7 = sumMonths y 6 + month_len y 6 := rfl
  have e6 : sumMonths y 6 = sumMonths y 5 + month_len y 5 := rfl
  have e5 : sumMonths y 5 = sumMonths y 4 + month_len y 4 := rfl
  have e4 : sumMonths y 4 = sumMonths y 3 + month_len y 3 := rfl
  have e3 : sumMonths y 3 = sumMonths y 2 + month_len y 2 := rfl
  have e2 : sumMonths y 2 = sumMonths y 1 + month_len y 1 := rfl
  have e1 : sumMonths y 1 = 0 + month_len y 0 := rfl
  have l0 : month_len y 0 = 31 := rfl
  have l2 : month_len y 2 = 31 := rfl
  have l3 : month_len y 3 = 30 := rfl
  have l4 : month_len y 4 = 31 := rfl
  have l5 : month_len y 5 = 30 := rfl
  have l6 : month_len y 6 = 31 := rfl
  have l7 : month_len y 7 = 31 := rfl
  have l8 : month_len y 8 = 30 := rfl
  have l9 : month_len y 9 = 31 := rfl
  have l10 : month_len y 10 = 30 := rfl
  have l11 : month_len y 11 = 31 := rfl
  by_cases hl : is_leap_year y
  · have l1 : month_len y 1 = 29 := by
      unfold month_len
      simp [hl]
    have hy : days_in_year y = 366 := by
      unfold days_in_year
      simp [hl]
    omega
  · have l1 : month_len y 1 = 28 := by
      unfold month_len
      simp [hl, days_in_month_table]
    have hy : days_in_year y = 365 := by
      unfold days_in_year
      simp [hl]
    omega

/-- Helper: the month-finding loop, started inside the year, exits through
its break with a month index below 12 and a day remainder smaller than
that month, decomposing its input as months plus remainder. -/
theorem monthLoop_sound :
    ∀ fuel m days year : Nat, m + fuel = 12 →
      days + sumMonths year m < days_in_year year →
      ∃ d2 m2, monthLoop year fuel days m = (d2, m2) ∧ m2 < 12 ∧
        d2 < month_len year m2 ∧
        days + sumMonths year m = sumMonths year m2 + d2 := by
  intro fuel
  induction fuel with
  | zero =>
    intro m days year hm hd
    rw [show m = 12 from by omega, sumMonths_twelve year] at hd
    omega
  | succ f ih =>
    intro m days year hm hd
    have hmlt : m < 12 := by omega
    by_cases hg : days < month_len year m
    · refine ⟨days, m, ?_, hmlt, hg, by omega⟩
      show monthLoop year (f + 1) days m = _
      unfold monthLoop
      rw [if_pos hmlt, if_pos hg]
    · have hsm : sumMonths year (m + 1) = sumMonths year m + month_len year m := rfl
      obtain ⟨d2, m2, hloop, h12, hlen, hsum⟩ :=
        ih (m + 1) (days - month_len year m) year (by omega) (by omega)
      refine ⟨d2, m2, ?_, h12, hlen, ?_⟩
      · show monthLoop year (f + 1) days m = _
        unfold monthLoop
        rw [if_pos hmlt, if_neg hg]
        exact hloop
      · omega

/-! ## Bridging the code-side calendar to the specification-side one -/

/-- Helper: the code leap-year test decides the specification leap-year
proposition. -/
theorem is_leap_iff (y : Nat) : is_leap_year y = true ↔ isLeapSpec y := by
  unfold is_leap_year isLeapSpec
  simp [Bool.or_eq_true, Bool.and_eq_true, beq_iff_eq, bne_iff_ne]

/-- Helper: code-side and specification-side year lengths agree. -/
theorem days_in_year_eq (y : Nat) : days_in_year y = daysInYearSpec y := by
  unfold days_in_year daysInYearSpec
  by_cases h : isLeapSpec y
  · have hb := (is_leap_iff y).mpr h
    simp [hb, h]
  · have hb : ¬ is_leap_year y = true := fun hh => h ((is_leap_iff y).mp hh)
    simp [hb, h]

/-- Helper: the consecutive year sum starting at 1970 is the
specification day count before a year. -/
theorem sumYears_epoch : ∀ n, sumYears 1970 n = daysBeforeYearsSpec n := by
  intro n
  induction n with
  | zero => rfl
  | succ k ih =>
    show sumYears 1970 k + days_in_year (1970 + k) =
      daysBeforeYearsSpec k + daysInYearSpec (1970 + k)
    rw [ih, days_in_year_eq]

/-- Helper: code-side month length at 0-indexed m is the specification
month length at 1-indexed m + 1. -/
theorem month_len_eq (y : Nat) : ∀ m, m ≤ 11 → month_len y m = monthLenSpec y (m + 1) := by
  intro m hm
  have hleap : ∀ a b : Nat, month_len y 1 = (if isLeapSpec y then 29 else 28) := by
    intro _ _
    by_cases h : isLeapSpec y
    · have hb := (is_leap_iff y).mpr h
      unfold month_len
      simp [hb, h]
    · have hb : ¬ is_leap_year y = true := fun hh => h ((is_leap_iff y).mp hh)
      unfold month_len
      simp [hb, h, days_in_month_table]
  interval_cases m
  · rfl
  · exact hleap 0 0
  · rfl
  · rfl
  · rfl
  · rfl
  · rfl
  · rfl
  · rfl
  · rfl
  · rfl
  · rfl

/-- Helper: the consecutive code-side month sum is the specification day
count before the following 1-indexed month. -/
theorem sumMonths_eq_spec (y : Nat) :
    ∀ m, m ≤ 12 → sumMonths y m = daysBeforeMonthSpec y (m + 1) := by
  intro m
  induction m with
  | zero => intro _; rfl
  | succ k ih =>
    intro hk
    show sumMonths y k + month_len y k = daysBeforeMonthSpec y (k + 2)
    rw [ih (by omega), month_len_eq y k (by omega)]
    rfl

/-- Helper: every specification month length is at most 31. -/
theorem monthLenSpec_le (y m : Nat) : monthLenSpec y m ≤ 31 := by
  unfold monthLenSpec
  split <;> first
    | omega
    | (split <;> omega)

/-! ## Decimal digit lengths -/

/-- Helper: one digit for values below ten. -/
theorem digitsFuel_len1 (f n : Nat) (hf : 0 < f) (hn : n < 10) :
    (digitsFuel f n).length = 1 := by
  cases f with
  | zero => omega
  | succ f2 =>
    unfold digitsFuel
    rw [if_pos hn]
    rfl

/-- Helper: two digits for values from ten below one hundred. -/
theorem digitsFuel_len2 (f n : Nat) (hf : 1 < f) (h1 : 10 ≤ n) (h2 : n < 100) :
    (digitsFuel f n).length = 2 := by
  cases f with
  | zero => omega
  | succ f2 =>
    unfold digitsFuel
    rw [if_neg (by omega), List.length_append,
      digitsFuel_len1 f2 (n / 10) (by omega) (by omega)]
    rfl

/-- Helper: three digits for values from one hundred below one thousand. -/
theorem digitsFuel_len3 (f n : Nat) (hf : 2 < f) (h1 : 100 ≤ n) (h2 : n < 1000) :
    (digitsFuel f n).length = 3 := by
  cases f with
  | zero => omega
  | succ f2 =>
    unfold digitsFuel
    rw [if_neg (by omega), List.length_append,
      digitsFuel_len2 f2 (n / 10) (by omega) (by omega) (by omega)]
    rfl

/-- Helper: four digits for values from one thousand below ten thousand. -/
theorem digitsFuel_len4 (f n : Nat) (hf : 3 < f) (h1 : 1000 ≤ n) (h2 : n < 10000) :
    (digitsFuel f n).length = 4 := by
  cases f with
  | zero => omega
  | succ f2 =>
    unfold digitsFuel
    rw [if_neg (by omega), List.length_append,
      digitsFuel_len3 f2 (n / 10) (by omega) (by omega) (by omega)]
    rfl

/-- Helper: five digits for values from ten thousand below one hundred
thousand. -/
theorem digitsFuel_len5 (f n : Nat) (hf : 4 < f) (h1 : 10000 ≤ n) (h2 : n < 100000) :
    (digitsFuel f n).length = 5 := by
  cases f with
  | zero => omega
  | succ f2 =>
    unfold digitsFuel
    rw [if_neg (by omega), List.length_append,
      digitsFuel_len4 f2 (n / 10) (by omega) (by omega) (by omega)]
    rfl

/-- Helper: the decimal representation of a value below one hundred has at
most two characters. -/
theorem natDecimal_len_le2 (n : Nat) (h : n < 100) : (natDecimal n).length ≤ 2 := by
  unfold natDecimal
  show (digitsFuel (n + 1) n).length ≤ 2
  by_cases h10 : n < 10
  · rw [digitsFuel_len1 (n + 1) n (by omega) h10]
    omega
  · rw [digitsFuel_len2 (n + 1) n (by omega) (by omega) h]

/-- Helper: four-digit values have a four-character decimal
representation. -/
theorem natDecimal_len4 (n : Nat) (h1 : 1000 ≤ n) (h2 : n < 10000) :
    (natDecimal n).length = 4 := by
  unfold natDecimal
  show (digitsFuel (n + 1) n).length = 4
  exact digitsFuel_len4 (n + 1) n (by omega) h1 h2

/-- Helper: five-digit values have a five-character decimal
representation. -/
theorem natDecimal_len5 (n : Nat) (h1 : 10000 ≤ n) (h2 : n < 100000) :
    (natDecimal n).length = 5 := by
  unfold natDecimal
  show (digitsFuel (n + 1) n).length = 5
  exact digitsFuel_len5 (n + 1) n (by omega) h1 h2

/-- Helper: zero padding yields the larger of the width and the digit
count. -/
theorem zeroPad_len (w n : Nat) : (zeroPad w n).length = max w (natDecimal n).length := by
  unfold zeroPad
  rw [String.length_append]
  show (List.replicate (w - (natDecimal n).length) '0').length + (natDecimal n).length = _
  rw [List.length_replicate]
  omega

/-- Helper: width-two zero padding of a value below one hundred has length
exactly two. -/
theorem zeroPad2_len (n : Nat) (h : n < 100) : (zeroPad 2 n).length = 2 := by
  rw [zeroPad_len]
  have := natDecimal_len_le2 n h
  omega

/-! ## The full characterisation of chrono_lite_from_secs -/

/-- Helper: the characterisation behind claim C9: the fields computed by
chrono_lite_from_secs decompose the input seconds as the unique proleptic
Gregorian UTC date-time, the formatted string is the concatenation of the
zero-padded fields, and its length is 16 plus the year width (at least
four). -/
theorem chronoFields_spec (secs y m d h mi s : Nat)
    (hF : chronoFields secs = (y, m, d, h, mi, s)) :
    1970 ≤ y ∧ 1 ≤ m ∧ m ≤ 12 ∧ 1 ≤ d ∧ d ≤ monthLenSpec y m ∧
    h < 24 ∧ mi < 60 ∧ s < 60 ∧
    secs = (daysBeforeYearsSpec (y - 1970) + daysBeforeMonthSpec y m + (d - 1)) * 86400
      + (h * 3600 + mi * 60 + s) ∧
    (chrono_lite_from_secs secs).length = max 4 (natDecimal y).length + 16 ∧
    (y ≤ 9999 → (chrono_lite_from_secs secs).length = 20) := by
  obtain ⟨n, d1, hYL, hYsum, hYrem⟩ :=
    yearLoop_sound (secs / 86400 / 365 + 1) (secs / 86400) 1970 (by omega)
  obtain ⟨d2, m2, hML, hm2, hlen2, hMsum⟩ :=
    monthLoop_sound 12 0 d1 (1970 + n) (by omega)
      (by show d1 + sumMonths (1970 + n) 0 < _; have : sumMonths (1970 + n) 0 = 0 := rfl; omega)
  have hmin : min m2 11 = m2 := by omega
  have hcf : chronoFields secs =
      (1970 + n, m2 + 1, d2 + 1,
        secs % 86400 / 3600, secs % 86400 % 3600 / 60, secs % 86400 % 60) := by
    simp only [chronoFields]
    rw [hYL]
    simp only
    rw [hML]
    simp only
    rw [hmin]
  rw [hcf] at hF
  simp only [Prod.mk.injEq] at hF
  obtain ⟨hy, hm, hd, hh, hmi, hs⟩ := hF
  subst hy
  subst hm
  subst hd
  subst hh
  subst hmi
  subst hs
  have hmlen : month_len (1970 + n) m2 = monthLenSpec (1970 + n) (m2 + 1) :=
    month_len_eq (1970 + n) m2 (by omega)
  have hsm0 : sumMonths (1970 + n) 0 = 0 := rfl
  have hse := sumYears_epoch n
  have hsme := sumMonths_eq_spec (1970 + n) m2 (by omega)
  have hn1970 : 1970 + n - 1970 = n := by omega
  have hstr : chrono_lite_from_secs secs =
      zeroPad 4 (1970 + n) ++ "-" ++ zeroPad 2 (m2 + 1) ++ "-" ++
      zeroPad 2 (d2 + 1) ++ "T" ++ zeroPad 2 (secs % 86400 / 3600) ++ ":" ++
      zeroPad 2 (secs % 86400 % 3600 / 60) ++ ":" ++ zeroPad 2 (secs % 86400 % 60) ++ "Z" := by
    unfold chrono_lite_from_secs
    rw [hcf]
  have hd31 : d2 + 1 ≤ 31 := by
    have := monthLenSpec_le (1970 + n) (m2 + 1)
    omega
  have hlen : (chrono_lite_from_secs secs).length = max 4 (natDecimal (1970 + n)).length + 16 := by
    rw [hstr]
    simp only [String.length_append]
    rw [zeroPad_len 4 (1970 + n),
      zeroPad2_len (m2 + 1) (by omega),
      zeroPad2_len (d2 + 1) (by omega),
      zeroPad2_len (secs % 86400 / 3600) (by omega),
      zeroPad2_len (secs % 86400 % 3600 / 60) (by omega),
      zeroPad2_len (secs % 86400 % 60) (by omega)]
    have hdash : ("-" : String).length = 1 := rfl
    have hT : ("T" : String).length = 1 := rfl
    have hcolon : (":" : String).length = 1 := rfl
    have hZ : ("Z" : String).length = 1 := rfl
    rw [hdash, hT, hcolon, hZ]
  refine ⟨by omega, by omega, by omega, by omega, by omega, by omega, by omega, by omega,
    ?_, hlen, ?_⟩
  · rw [hn1970]
    have hsum2 : d1 = sumMonths (1970 + n) m2 + d2 := by omega
    rw [← hse, ← hsme]
    have : m2 + 1 - 1 = m2 := by omega
    omega
  · intro h9999
    rw [hlen, natDecimal_len4 (1970 + n) (by omega) (by omega)]
    decide

/-- Helper: the leap-count expression steps by one exactly at leap
years. -/
theorem leap_count_step_true (x : Nat)
    (h : (x + 1) % 4 = 0 ∧ (x + 1) % 100 ≠ 0 ∨ (x + 1) % 400 = 0) :
    (x + 1) / 4 - (x + 1) / 100 + (x + 1) / 400 =
      x / 4 - x / 100 + x / 400 + 1 := by
  omega

/-- Helper: the leap-count expression is unchanged at non-leap years. -/
theorem leap_count_step_false (x : Nat)
    (h : ¬ ((x + 1) % 4 = 0 ∧ (x + 1) % 100 ≠ 0 ∨ (x + 1) % 400 = 0)) :
    (x + 1) / 4 - (x + 1) / 100 + (x + 1) / 400 =
      x / 4 - x / 100 + x / 400 := by
  omega

/-- Helper: closed form for the day count before year 1970 + n, via the
number of leap years in the interval. -/
theorem daysBeforeYearsSpec_closed : ∀ n, daysBeforeYearsSpec n + 477 =
    365 * n + ((1969 + n) / 4 - (1969 + n) / 100 + (1969 + n) / 400) := by
  intro n
  induction n with
  | zero => decide
  | succ k ih =>
    have hstep : daysBeforeYearsSpec (k + 1) =
      daysBeforeYearsSpec k + daysInYearSpec (1970 + k) := rfl
    have hx : 1970 + k = 1969 + k + 1 := by omega
    have harg : 1969 + (k + 1) = 1969 + k + 1 := by omega
    by_cases h : isLeapSpec (1970 + k)
    · have hd : daysInYearSpec (1970 + k) = 366 := by
        unfold daysInYearSpec
        rw [if_pos h]
      unfold isLeapSpec at h
      rw [hx] at h
      have hg := leap_count_step_true (1969 + k) h
      rw [hstep, hd, harg, hg]
      omega
    · have hd : daysInYearSpec (1970 + k) = 365 := by
        unfold daysInYearSpec
        rw [if_neg h]
      unfold isLeapSpec at h
      rw [hx] at h
      have hg := leap_count_step_false (1969 + k) h
      rw [hstep, hd, harg, hg]
      omega

/-- Helper: the twelve specification month lengths sum to the year
length. -/
theorem dbm_thirteen (y : Nat) : daysBeforeMonthSpec y 13 = daysInYearSpec y := by
  have e13 : daysBeforeMonthSpec y 13 = daysBeforeMonthSpec y 12 + monthLenSpec y 12 := rfl
  have e12 : daysBeforeMonthSpec y 12 = daysBeforeMonthSpec y 11 + monthLenSpec y 11 := rfl
  have e11 : daysBeforeMonthSpec y 11 = daysBeforeMonthSpec y 10 + monthLenSpec y 10 := rfl
  have e10 : daysBeforeMonthSpec y 10 = daysBeforeMonthSpec y 9 + monthLenSpec y 9 := rfl
  have e9 : daysBeforeMonthSpec y 9 = daysBeforeMonthSpec y 8 + monthLenSpec y 8 := rfl
  have e8 : daysBeforeMonthSpec y 8 = daysBeforeMonthSpec y 7 + monthLenSpec y 7 := rfl
  have e7 : daysBeforeMonthSpec y 7 = daysBeforeMonthSpec y 6 + monthLenSpec y 6 := rfl
  have e6 : daysBeforeMonthSpec y 6 = daysBeforeMonthSpec y 5 + monthLenSpec y 5 := rfl
  have e5 : daysBeforeMonthSpec y 5 = daysBeforeMonthSpec y 4 + monthLenSpec y 4 := rfl
  have e4 : daysBeforeMonthSpec y 4 = daysBeforeMonthSpec y 3 + monthLenSpec y 3 := rfl
  have e3 : daysBeforeMonthSpec y 3 = daysBeforeMonthSpec y 2 + monthLenSpec y 2 := rfl
  have e2 : daysBeforeMonthSpec y 2 = daysBeforeMonthSpec y 1 + monthLenSpec y 1 := rfl
  have e1 : daysBeforeMonthSpec y 1 = 0 := rfl
  have l1 : monthLenSpec y 1 = 31 := rfl
  have l3 : monthLenSpec y 3 = 31 := rfl
  have l4 : monthLenSpec y 4 = 30 := rfl
  have l5 : monthLenSpec y 5 = 31 := rfl
  have l6 : monthLenSpec y 6 = 30 := rfl
  have l7 : monthLenSpec y 7 = 31 := rfl
  have l8 : monthLenSpec y 8 = 31 := rfl
  have l9 : monthLenSpec y 9 = 30 := rfl
  have l10 : monthLenSpec y 10 = 31 := rfl
  have l11 : monthLenSpec y 11 = 30 := rfl
  have l12 : monthLenSpec y 12 = 31 := rfl
  unfold daysInYearSpec
  by_cases h : isLeapSpec y
  · have l2 : monthLenSpec y 2 = 29 := by
      show (if isLeapSpec y then 29 else 28) = 29
      rw [if_pos h]
    rw [if_pos h]
    omega
  · have l2 : monthLenSpec y 2 = 28 := by
      show (if isLeapSpec y then 29 else 28) = 28
      rw [if_neg h]
    rw [if_neg h]
    omega

/-- Helper: within a year, the days before a month plus that month fit in
the year. -/
theorem dbm_add_len (y m : Nat) (h1 : 1 ≤ m) (h2 : m ≤ 12) :
    daysBeforeMonthSpec y m + monthLenSpec y m ≤ daysInYearSpec y := by
  have e13 : daysBeforeMonthSpec y 13 = daysBeforeMonthSpec y 12 + monthLenSpec y 12 := rfl
  have e12 : daysBeforeMonthSpec y 12 = daysBeforeMonthSpec y 11 + monthLenSpec y 11 := rfl
  have e11 : daysBeforeMonthSpec y 11 = daysBeforeMonthSpec y 10 + monthLenSpec y 10 := rfl
  have e10 : daysBeforeMonthSpec y 10 = daysBeforeMonthSpec y 9 + monthLenSpec y 9 := rfl
  have e9 : daysBeforeMonthSpec y 9 = daysBeforeMonthSpec y 8 + monthLenSpec y 8 := rfl
  have e8 : daysBeforeMonthSpec y 8 = daysBeforeMonthSpec y 7 + monthLenSpec y 7 := rfl
  have e7 : daysBeforeMonthSpec y 7 = daysBeforeMonthSpec y 6 + monthLenSpec y 6 := rfl
  have e6 : daysBeforeMonthSpec y 6 = daysBeforeMonthSpec y 5 + monthLenSpec y 5 := rfl
  have e5 : daysBeforeMonthSpec y 5 = daysBeforeMonthSpec y 4 + monthLenSpec y 4 := rfl
  have e4 : daysBeforeMonthSpec y 4 = daysBeforeMonthSpec y 3 + monthLenSpec y 3 := rfl
  have e3 : daysBeforeMonthSpec y 3 = daysBeforeMonthSpec y 2 + monthLenSpec y 2 := rfl
  have e2 : daysBeforeMonthSpec y 2 = daysBeforeMonthSpec y 1 + monthLenSpec y 1 := rfl
  have e1 : daysBeforeMonthSpec y 1 = 0 := rfl
  have hd13 := dbm_thirteen y
  interval_cases m <;> omega

/-- Claim C9 (amended): for every input, chrono_lite_from_secs terminates
and returns the zero-padded string of its computed fields, and those
fields are exactly the proleptic Gregorian UTC date-time of the input
under the stated leap-year rule, with month in 1..12, day valid for the
month, and hour, minute, second in range; the string is 20 characters
exactly when the year is at most 9999 (the year field is padded to a
minimum of four digits, so later years lengthen the string). -/
theorem chrono_lite_gregorian_fields (secs y m d h mi s : Nat)
    (hF : chronoFields secs = (y, m, d, h, mi, s)) :
    1970 ≤ y ∧ 1 ≤ m ∧ m ≤ 12 ∧ 1 ≤ d ∧ d ≤ monthLenSpec y m ∧
    h < 24 ∧ mi < 60 ∧ s < 60 ∧
    secs = (daysBeforeYearsSpec (y - 1970) + daysBeforeMonthSpec y m + (d - 1)) * 86400
      + (h * 3600 + mi * 60 + s) ∧
    (chrono_lite_from_secs secs).length = max 4 (natDecimal y).length + 16 ∧
    (y ≤ 9999 → (chrono_lite_from_secs secs).length = 20) :=
  chronoFields_spec secs y m d h mi s hF

/-- Witness for claim C9 at the input 1704067200, whose fields are
2024-01-01 at midnight. -/
theorem chrono_lite_gregorian_fields_witness :
    1970 ≤ 2024 ∧ 1 ≤ 1 ∧ 1 ≤ 12 ∧ 1 ≤ 1 ∧ 1 ≤ monthLenSpec 2024 1 ∧
    0 < 24 ∧ 0 < 60 ∧ 0 < 60 ∧
    1704067200 =
      (daysBeforeYearsSpec (2024 - 1970) + daysBeforeMonthSpec 2024 1 + (1 - 1)) * 86400
        + (0 * 3600 + 0 * 60 + 0) ∧
    (chrono_lite_from_secs 1704067200).length = max 4 (natDecimal 2024).length + 16 ∧
    (2024 ≤ 9999 → (chrono_lite_from_secs 1704067200).length = 20) :=
  chrono_lite_gregorian_fields 1704067200 2024 1 1 0 0 0 (by decide)

/-- Claim C9 counterexample: at the u64 input 253402300800 the returned
string is 10000-01-01T00:00:00Z, which has 21 characters, not 20: the year
field outgrows its four-digit padding. -/
theorem chrono_lite_not_always_20_chars :
    253402300800 < 2 ^ 64 ∧ (chrono_lite_from_secs 253402300800).length = 21 := by
  refine ⟨by norm_num, ?_⟩
  rcases hF : chronoFields 253402300800 with ⟨y, m, d, h, mi, s⟩
  obtain ⟨hy1970, hm1, hm12, hd1, hdle, hh, hmi, hs, heq, hlen, _⟩ :=
    chronoFields_spec 253402300800 y m d h mi s hF
  have hball := dbm_add_len y m hm1 hm12
  have hdiy : daysInYearSpec y ≤ 366 := by
    unfold daysInYearSpec
    split <;> omega
  have hcl := daysBeforeYearsSpec_closed (y - 1970)
  have hylb : 10000 ≤ y := by
    by_cases hy99 : y = 9999
    · exfalso
      have h9999 : ¬ isLeapSpec 9999 := by decide
      have hdiy99 : daysInYearSpec 9999 = 365 := by
        unfold daysInYearSpec
        rw [if_neg h9999]
      subst hy99
      omega
    · by_contra hcon
      push_neg at hcon
      omega
  have hyub : y < 100000 := by omega
  rw [hlen, natDecimal_len5 y hylb hyub]
  decide

end BibleMarker
